import Mathlib

/-!
Verification of the simplified micro-frontend framework
(`packages/simplified-mfe/src/index.js`) against its specification.

The JavaScript source is shallowly embedded: JS objects used as
string-keyed dictionaries become ordered association lists (JS objects
preserve insertion order, which matters for `JSON.stringify` comparison in
the state manager), the process-wide `window.__MFE_EVENT_REGISTRY` map
becomes an association list from bus id to its event table, and handler
functions become opaque `Handler` values carrying a `throws` flag so that
the try/catch behaviour of the dispatch loops can be stated.
-/

/-- Ordered association list lookup: first entry with the given key wins,
mirroring JS property access on an object / `Map.get`. -/
def alookup {α : Type} : List (String × α) → String → Option α
  | [], _ => none
  | (k, v) :: rest, key => if k = key then some v else alookup rest key

/-- Ordered association list update: replaces the first entry with the key
(keeping its position, as JS property assignment does) or appends a new
entry at the end (as JS property creation / `Map.set` does). -/
def aset {α : Type} : List (String × α) → String → α → List (String × α)
  | [], key, v => [(key, v)]
  | (k, w) :: rest, key, v =>
      if k = key then (key, v) :: rest else (k, w) :: aset rest key v

/-- Removal of a key, mirroring `Map.delete`. -/
def aerase {α : Type} : List (String × α) → String → List (String × α)
  | [], _ => []
  | (k, w) :: rest, key => if k = key then rest else (k, w) :: aerase rest key

/-- `EventBus` handlers are opaque: only their identity (used by the
`includes` checks in `$on`/`$onAll`) and whether calling them throws
(exercising the try/catch in `$emit`) are modelled. -/
structure Handler where
  hid : Nat
  throws : Bool
deriving DecidableEq

/-- The `events` object of one bus: event name → ordered handler list.
The source stores the "listen all" handler array under the `_all` key of
the same object (`this.events._all = this.allEvents`), so the embedding
does too. -/
abbrev Events := List (String × List Handler)

/-- The process-wide `window.__MFE_EVENT_REGISTRY`: bus id → events. -/
abbrev BusRegistry := List (String × Events)

/-- `this.events[event] || []`. -/
def getEv (es : Events) (e : String) : List Handler := (alookup es e).getD []

/-- The events object of a bus id in the registry (`{}` when absent). -/
def getBus (r : BusRegistry) (id : String) : Events := (alookup r id).getD []

/-- `EventBus` constructor: fetches the existing events object for `id`
from the global registry (or starts a fresh one), stores it back, and
makes sure the `_all` key holds the listen-all array. -/
def mkEventBus (r : BusRegistry) (id : String) : BusRegistry :=
  let es := getBus r id
  aset r id (aset es "_all" (getEv es "_all"))

/-- `$on`: create the handler array for the event if missing, then push
the handler unless it is already present. -/
def onReg (r : BusRegistry) (id e : String) (h : Handler) : BusRegistry :=
  let es := getBus r id
  let hs := getEv es e
  if h ∈ hs then r else aset r id (aset es e (hs ++ [h]))

/-- `$onAll`: push onto the listen-all array unless already present. -/
def onAllReg (r : BusRegistry) (id : String) (h : Handler) : BusRegistry :=
  onReg r id "_all" h

/-- `$off`: remove the first occurrence of the handler, or all handlers of
the event when no handler is given. -/
def offReg (r : BusRegistry) (id e : String) (h : Option Handler) : BusRegistry :=
  let es := getBus r id
  match alookup es e with
  | none => r
  | some hs =>
      match h with
      | some hh => aset r id (aset es e (hs.eraseP (fun x => x = hh)))
      | none => aset r id (aset es e [])

/-- `$clear`: reset the bus's events object to a fresh one holding only an
empty listen-all array, and store it back in the registry. -/
def clearReg (r : BusRegistry) (id : String) : BusRegistry :=
  aset r id [("_all", [])]

/-- JS `String.prototype.startsWith`, stated on the character sequences of
the two strings so that it evaluates by kernel reduction. -/
def strStartsWith (s pre : String) : Bool := pre.data.isPrefixOf s.data

/-- Whether an event is namespaced private: `$emit` skips the cross-bus
broadcast for names starting with `state:` or `_`. -/
def isPrivate (e : String) : Bool := strStartsWith e "state:" || strStartsWith e "_"

/-- A call kind distinguishes invocation through the per-event handler
array from invocation through the listen-all array (which receives the
event name as an extra argument in the source). -/
inductive CallKind where
  | specific
  | listenAll
deriving DecidableEq

/-- One handler invocation performed by `$emit`: which bus's store the
handler came from, the handler, the kind of invocation, and whether the
handler threw (in which case the source catches and logs the error). -/
structure Call where
  bus : String
  handler : Handler
  kind : CallKind
  caught : Bool
deriving DecidableEq

/-- A `forEach` over one handler array: each handler is invoked inside
try/catch, so a throwing handler is recorded as caught and the loop
continues. -/
def runHandlers (busId : String) (k : CallKind) (hs : List Handler) : List Call :=
  hs.map (fun h => { bus := busId, handler := h, kind := k, caught := h.throws })

/-- `$emit`: local per-event handlers, then the local listen-all handlers,
then — unless the event is namespaced private — a `forEach` over the
global registry invoking every other bus's per-event and listen-all
handlers. The returned list is the complete invocation trace in order. -/
def emitReg (r : BusRegistry) (id e : String) : List Call :=
  let es := getBus r id
  let base := runHandlers id .specific (getEv es e)
      ++ runHandlers id .listenAll (getEv es "_all")
  if isPrivate e then base
  else
    r.foldl
      (fun acc p =>
        if p.1 = id then acc
        else acc ++ (runHandlers p.1 .specific (getEv p.2 e)
          ++ runHandlers p.1 .listenAll (getEv p.2 "_all")))
      base

/-- The `EventBus` object itself: its only own state is the id; the
handler store lives in the global registry. -/
structure EventBus where
  id : String
deriving DecidableEq

/-- `$on` as a method: mutates the shared store and returns `this`. -/
def EventBus.on (b : EventBus) (r : BusRegistry) (e : String) (h : Handler) :
    EventBus × BusRegistry :=
  (b, onReg r b.id e h)

/-- Specification-side description of the cross-bus fan-out of `$emit`:
every other registered bus, in registry order, contributes its per-event
handlers and then its listen-all handlers. -/
def fanoutCalls (id e : String) : BusRegistry → List Call
  | [] => []
  | p :: rest =>
      if p.1 = id then fanoutCalls id e rest
      else runHandlers p.1 .specific (getEv p.2 e)
        ++ runHandlers p.1 .listenAll (getEv p.2 "_all") ++ fanoutCalls id e rest

/-- The handler list an invocation record of the given kind on a bus with
events `p.2` is drawn from. -/
def kindList (p : String × Events) (e : String) : CallKind → List Handler
  | .specific => getEv p.2 e
  | .listenAll => getEv p.2 "_all"

/-- Well-formedness of the bus registry, maintained by the operations:
bus ids are unique (`window.__MFE_EVENT_REGISTRY` is a `Map`) and every
handler array is duplicate-free (`$on`/`$onAll` check `includes`). -/
def wfReg (r : BusRegistry) : Prop :=
  (r.map Prod.fst).Nodup ∧ ∀ p ∈ r, ∀ ev ∈ p.2, (ev.2 : List Handler).Nodup

instance (r : BusRegistry) : Decidable (wfReg r) := by
  unfold wfReg
  infer_instance

/-- Total number of occurrences of a handler anywhere in the registry
(in every bus's per-event arrays, including the listen-all arrays). -/
def occCount (r : BusRegistry) (h : Handler) : Nat :=
  (r.map (fun p => (p.2.map (fun ev => List.count h ev.2)).sum)).sum

/-- The same handler with its `throws` flag cleared. -/
def calmHandler (h : Handler) : Handler := ⟨h.hid, false⟩

/-- An events object with every handler's `throws` flag cleared. -/
def calmEvents (es : Events) : Events :=
  es.map (fun ev => (ev.1, ev.2.map calmHandler))

/-- The registry with every handler's `throws` flag cleared. -/
def calmReg (r : BusRegistry) : BusRegistry :=
  r.map (fun p => (p.1, calmEvents p.2))

/-- Projection of an invocation record to what ran: bus, handler identity
and invocation kind. -/
def callShape (c : Call) : String × Nat × CallKind := (c.bus, c.handler.hid, c.kind)

/-- JS object spread on two ordered string-keyed objects, as performed by
`setState`'s merge: keys of `old` keep their position, with the value
overridden when the key also occurs in `new`; keys occurring only in `new`
are appended in their order. -/
def spreadMerge {V : Type} (old new : List (String × V)) : List (String × V) :=
  old.map (fun p => (p.1, (alookup new p.1).getD p.2))
    ++ new.filter (fun q => (alookup old q.1).isNone)

/-- `StateManager`: the state object, plus the optional binding to a bus
id and a slice name installed by `connect`. Subscribers are modelled by
the `notified` flag of `SetStateResult` (all of them are notified together
by `notifyListeners`). -/
structure StateManager (V : Type) where
  state : List (String × V)
  bus : Option String
  name : Option String
deriving DecidableEq

/-- What one `setState` call did: the updated manager, whether
`notifyListeners` ran, and the bus broadcast (event name and delta
payload) if one was emitted. -/
structure SetStateResult (V : Type) where
  sm : StateManager V
  notified : Bool
  emitted : Option (String × List (String × V))
deriving DecidableEq

/-- `setState`: shallow-merge the partial into the state; when the
`JSON.stringify` images of previous and merged state differ (equality of
the ordered key-value lists, which stringify renders faithfully), notify
subscribers and — when bound to a bus under a nonempty name — re-emit the
delta as `state:update:` followed by the name. -/
def StateManager.setState {V : Type} [DecidableEq V] (m : StateManager V)
    (newState : List (String × V)) : SetStateResult V :=
  let prevState := m.state
  let merged := spreadMerge m.state newState
  if merged ≠ prevState then
    { sm := { m with state := merged }, notified := true,
      emitted :=
        match m.bus, m.name with
        | some _, some n =>
            if n = "" then none else some ("state:update:" ++ n, newState)
        | _, _ => none }
  else
    { sm := { m with state := merged }, notified := false, emitted := none }

/-- Location of an iframe element in the document: inside a container
element, appended to `document.body` (web-component mode hides the
primary iframe there), or among the children of a sandbox's shadow
root. -/
inductive Loc where
  | inContainer (c : Nat)
  | inBody
  | inShadow (owner : String)
deriving DecidableEq

/-- The fields of one `Sandbox` the verified operations touch. An
attached iframe's `contentWindow` is identified with its element id;
`none` means the iframe does not exist (so `this.iframe.contentWindow`
throws). A lifecycle hook is `none` when absent and `some b` when
present, `b` recording whether calling it throws. -/
structure Sb where
  name : String
  url : String
  container : Nat
  degrade : Bool
  iframe : Option Nat
  shadowIframe : Option Nat
  hasShadowRoot : Bool
  mountFlag : Bool
  unmountFlag : Bool
  lcBeforeMount : Option Bool
  lcAfterMount : Option Bool
  lcBeforeUnmount : Option Bool
  lcAfterUnmount : Option Bool
deriving DecidableEq

/-- `new Sandbox(options)`: no iframe yet, lifecycle flags down. -/
def mkSandbox (name url : String) (container : Nat) (degrade : Bool)
    (lcBM lcAM lcBU lcAU : Option Bool) : Sb :=
  { name := name, url := url, container := container, degrade := degrade,
    iframe := none, shadowIframe := none, hasShadowRoot := false,
    mountFlag := false, unmountFlag := false,
    lcBeforeMount := lcBM, lcAfterMount := lcAM,
    lcBeforeUnmount := lcBU, lcAfterUnmount := lcAU }

/-- The host page: the sandbox registry (`window.__MFE_SANDBOX_REGISTRY`),
the attached iframes with their locations, and a counter supplying fresh
element identities. -/
structure World where
  sreg : List (String × Sb)
  dom : List (Nat × Loc)
  nextId : Nat
deriving DecidableEq

/-- Observable teardown actions of `unmount` (`caughtError` marks the
surrounding catch logging an error thrown inside the try block). -/
inductive Step where
  | beforeUnmountHook
  | sendUnmountIframe
  | sendUnmountShadow
  | clearBus
  | detachShadow
  | afterUnmountHook
  | caughtError
deriving DecidableEq

/-- The part of `unmount` after the `beforeUnmount` hook: send
`lifecycle:unmount` to the live transports, await the settle interval,
lower `mountFlag` and raise `unmountFlag`, clear the sandbox's bus,
detach the shadow-root children, then run `afterUnmount` (whose argument
`this.iframe.contentWindow` throws when the iframe is absent; a throw is
caught by the surrounding try/catch). -/
def unmountCont (s : Sb) (w : World) (tr : List Step) : Sb × World × List Step :=
  let t1 := tr ++ (if s.iframe.isSome then [Step.sendUnmountIframe] else [])
  let t2 := t1 ++ (if s.shadowIframe.isSome then [Step.sendUnmountShadow] else [])
  let s' := { s with mountFlag := false, unmountFlag := true }
  let t3 := t2 ++ [Step.clearBus]
  let w' := if s.hasShadowRoot
    then { w with dom := w.dom.filter (fun p => p.2 ≠ Loc.inShadow s.name) }
    else w
  let t4 := if s.hasShadowRoot then t3 ++ [Step.detachShadow] else t3
  match s.lcAfterUnmount with
  | some thr =>
      if s.iframe.isNone then (s', w', t4 ++ [Step.caughtError])
      else if thr then (s', w', t4 ++ [Step.afterUnmountHook, Step.caughtError])
      else (s', w', t4 ++ [Step.afterUnmountHook])
  | none => (s', w', t4)

/-- `unmount`: returns immediately when `unmountFlag` is already set;
otherwise runs the teardown inside a try/catch, starting with the
`beforeUnmount` hook (whose argument `this.iframe.contentWindow` throws
when the iframe is absent). An exception raised before the flag
assignment aborts the remaining teardown but is caught and only
logged. -/
def unmountSb (s : Sb) (w : World) : Sb × World × List Step :=
  if s.unmountFlag then (s, w, [])
  else
    match s.lcBeforeUnmount with
    | some thr =>
        if s.iframe.isNone then (s, w, [Step.caughtError])
        else if thr then (s, w, [Step.beforeUnmountHook, Step.caughtError])
        else unmountCont s w [Step.beforeUnmountHook]
    | none => unmountCont s w []

/-- Options accepted by `startApp`; `none` models an absent field of the
options object. -/
structure StartOptions where
  name : Option String
  url : Option String
  el : Option String
  alive : Bool
  degrade : Bool
  lcBeforeMount : Option Bool
  lcAfterMount : Option Bool
  lcBeforeUnmount : Option Bool
  lcAfterUnmount : Option Bool
deriving DecidableEq

/-- JS falsiness of an optional string option: absent or empty. -/
def falsy (o : Option String) : Bool :=
  match o with
  | none => true
  | some s => s == ""

/-- `setSandbox` followed by `createIframe` and, in web-component mode,
the custom element's `connectedCallback`: registers the sandbox, then
allocates a fresh iframe — in degrade mode the container is cleared and
the iframe appended there, otherwise the iframe is appended (hidden) to
`document.body` and a second, shadow iframe is cloned into the sandbox's
new shadow root. -/
def insertSandbox (w : World) (sb0 : Sb) : World :=
  let w1 := { w with sreg := aset w.sreg sb0.name sb0 }
  let i := w1.nextId
  let sb1 := { sb0 with iframe := some i }
  let w2 :=
    if sb0.degrade then
      { w1 with
          dom := (w1.dom.filter (fun p => p.2 ≠ Loc.inContainer sb0.container))
            ++ [(i, Loc.inContainer sb0.container)],
          nextId := i + 1,
          sreg := aset w1.sreg sb0.name sb1 }
    else
      { w1 with
          dom := w1.dom ++ [(i, Loc.inBody)],
          nextId := i + 1,
          sreg := aset w1.sreg sb0.name sb1 }
  if sb0.degrade then w2
  else
    let j := w2.nextId
    let sb2 := { sb1 with shadowIframe := some j, hasShadowRoot := true }
    { w2 with
        dom := w2.dom ++ [(j, Loc.inShadow sb0.name)],
        nextId := j + 1,
        sreg := aset w2.sreg sb0.name sb2 }

/-- `startApp`: validates the options, throwing synchronously — before
any iframe, transport or registry entry is made — when name/url/el is
missing (or empty, equally falsy) or the container selector `q` resolves
to no element; then either returns the live keep-alive instance's destroy
handle, or unmounts and evicts the live instance before constructing,
inserting and mounting a fresh Sandbox. The result pairs the updated page
state with the thrown error or the name whose destroy closure is
returned. -/
def startApp (q : String → Option Nat) (w : World) (o : StartOptions) :
    World × Except String String :=
  if falsy o.name || falsy o.url || falsy o.el then
    (w, Except.error "Missing required parameters (name, url, el)")
  else
    match q (o.el.getD "") with
    | none => (w, Except.error "Container element not found")
    | some c =>
        match alookup w.sreg (o.name.getD "") with
        | some sb =>
            if o.alive then (w, Except.ok (o.name.getD ""))
            else
              let r := unmountSb sb w
              let w2 := { r.2.1 with sreg := aerase r.2.1.sreg (o.name.getD "") }
              (insertSandbox w2 (mkSandbox (o.name.getD "") (o.url.getD "") c
                o.degrade o.lcBeforeMount o.lcAfterMount o.lcBeforeUnmount
                o.lcAfterUnmount), Except.ok (o.name.getD ""))
        | none =>
            (insertSandbox w (mkSandbox (o.name.getD "") (o.url.getD "") c
              o.degrade o.lcBeforeMount o.lcAfterMount o.lcBeforeUnmount
              o.lcAfterUnmount), Except.ok (o.name.getD ""))

/-- Observable actions of `mount`. -/
inductive MStep where
  | warnTimeout
  | beforeMountHook
  | sendMountIframe
  | sendMountShadow
  | settle
  | afterMountHook
  | caughtError
deriving DecidableEq

/-- The ready-wait timeout (ms) raced against the guest's `ready`
envelope. -/
def readyTimeoutMs : Nat := 5000

/-- The fixed settle interval (ms) awaited after the mount command. -/
def settleMs : Nat := 200

/-- The part of `mount` after the `beforeMount` hook: send the mount
envelope to the iframe (and, on a delay, to the shadow iframe), await the
settle interval, then run `afterMount` (caught by the surrounding
try/catch if it throws or the iframe is absent). -/
def mountCont (s : Sb) (t0 : Nat) (tr : List MStep) : Nat × List MStep :=
  let t1 := tr ++ (if s.iframe.isSome then [MStep.sendMountIframe] else [])
  let t2 := t1 ++ (if s.shadowIframe.isSome then [MStep.sendMountShadow] else [])
  let t3 := t2 ++ [MStep.settle]
  match s.lcAfterMount with
  | some thr =>
      if s.iframe.isNone then (t0 + settleMs, t3 ++ [MStep.caughtError])
      else if thr then (t0 + settleMs, t3 ++ [MStep.afterMountHook, MStep.caughtError])
      else (t0 + settleMs, t3 ++ [MStep.afterMountHook])
  | none => (t0 + settleMs, t3)

/-- `mount`, as a function of when (if ever) the guest's `ready` envelope
resolves `readyPromise`: races the promise against the timeout, warning
and proceeding when the timeout wins; then `beforeMount`, the mount
envelopes, the settle interval and `afterMount`, all inside a try/catch
so that a throwing hook ends the sequence early while `mount` still
resolves. Returns the resolution time (ms from entry) and the trace. -/
def mountSb (s : Sb) (readyAt : Option Nat) : Nat × List MStep :=
  let race := match readyAt with
    | some t =>
        if t < readyTimeoutMs then (t, ([] : List MStep))
        else (readyTimeoutMs, [MStep.warnTimeout])
    | none => (readyTimeoutMs, [MStep.warnTimeout])
  match s.lcBeforeMount with
  | some thr =>
      if s.iframe.isNone then (race.1, race.2 ++ [MStep.caughtError])
      else if thr then (race.1, race.2 ++ [MStep.beforeMountHook, MStep.caughtError])
      else mountCont s race.1 (race.2 ++ [MStep.beforeMountHook])
  | none => mountCont s race.1 race.2

/-- A message envelope as destructured by the transport listener: a field
absent from `event.data` is `none`. -/
structure Envelope where
  type : Option String
  event : Option String
  payload : Option (List Nat)
  action : Option String
  id : Option String
deriving DecidableEq

/-- A DOM message event: the posting window — identified, like
`contentWindow`, with the iframe's element id — and the data (`none`
models a missing/null `event.data`, replaced by the empty object in the
listener). -/
structure Msg where
  source : Nat
  data : Option Envelope
deriving DecidableEq

/-- The observable effects of the host-side transport listener. -/
inductive MsgEffect where
  | resolveReady
  | showIframe
  | hideLoading
  | busEmit (event : String) (payload : Option (List Nat))
  | afterMountHook
  | afterUnmountHook
deriving DecidableEq

/-- The `message` listener installed by `setupCrossOriginMessaging`: it
returns at once unless the message was posted by this sandbox's own
iframe `contentWindow`, then dispatches on `event.data.type`: `mfe-ready`
resolves the ready promise; `mfe-rendered` reveals the iframe in degrade
mode and hides the loading indicator; `mfe-event` with a truthy event
name replays the event on the local bus; `mfe-lifecycle` records the
child's mounted/unmounted acknowledgment and runs the matching
after-hook; any other or missing type falls through with no effect. -/
def handleMessage (s : Sb) (m : Msg) : Sb × List MsgEffect :=
  match s.iframe with
  | none => (s, [])
  | some win =>
      if m.source ≠ win then (s, [])
      else
        let d := m.data.getD ⟨none, none, none, none, none⟩
        match d.type with
        | some t =>
            if t = "mfe-ready" then (s, [MsgEffect.resolveReady])
            else if t = "mfe-rendered" then
              (s, (if s.degrade then [MsgEffect.showIframe] else [])
                ++ [MsgEffect.hideLoading])
            else if t = "mfe-event" then
              match d.event with
              | some en =>
                  if en = "" then (s, [])
                  else (s, [MsgEffect.busEmit en d.payload])
              | none => (s, [])
            else if t = "mfe-lifecycle" then
              match d.action with
              | some a =>
                  if a = "mounted" then
                    ({ s with mountFlag := true },
                      if (s.lcAfterMount).isSome then [MsgEffect.afterMountHook] else [])
                  else if a = "unmounted" then
                    ({ s with unmountFlag := true },
                      if (s.lcAfterUnmount).isSome then [MsgEffect.afterUnmountHook] else [])
                  else (s, [])
              | none => (s, [])
            else (s, [])
        | none => (s, [])

/-- Scenario C's options: `start` with name x, url, selector, in the
default web-component mode, no keep-alive. -/
def scenarioCOptions : StartOptions :=
  { name := some "x", url := some "http://a", el := some "#c",
    alive := false, degrade := false,
    lcBeforeMount := none, lcAfterMount := none,
    lcBeforeUnmount := none, lcAfterUnmount := none }

/-- Scenario C's document: the selector resolves to container 0. -/
def scenarioCQuery : String → Option Nat :=
  fun sel => if sel = "#c" then some 0 else none

/-- Scenario C: the empty page. -/
def scenarioCWorld0 : World := { sreg := [], dom := [], nextId := 0 }

/-- Scenario C: the page after the first `start`. -/
def scenarioCWorld1 : World :=
  (startApp scenarioCQuery scenarioCWorld0 scenarioCOptions).1

/-- Scenario C: the page after the second, replacing `start`. -/
def scenarioCWorld2 : World :=
  (startApp scenarioCQuery scenarioCWorld1 scenarioCOptions).1

/-- A mounted sandbox whose `beforeUnmount` lifecycle hook throws. -/
def throwingHookSb : Sb :=
  { name := "x", url := "http://a", container := 0, degrade := false,
    iframe := some 0, shadowIframe := none, hasShadowRoot := false,
    mountFlag := true, unmountFlag := false,
    lcBeforeMount := none, lcAfterMount := none,
    lcBeforeUnmount := some true, lcAfterUnmount := none }

/-- The page hosting `throwingHookSb`. -/
def throwingHookWorld : World :=
  { sreg := [("x", throwingHookSb)], dom := [(0, Loc.inBody)], nextId := 1 }

/-- A freshly constructed sandbox (no iframe yet, no hooks). -/
def freshSb : Sb := mkSandbox "y" "http://b" 0 true none none none none

/-- The page hosting `freshSb`. -/
def freshWorld : World := { sreg := [("y", freshSb)], dom := [], nextId := 0 }

theorem alookup_aset {α : Type} (l : List (String × α)) (k k' : String) (v : α) :
    alookup (aset l k v) k' = if k' = k then some v else alookup l k' := by
  induction l with
  | nil =>
      by_cases h : k = k'
      · simp [aset, alookup, h]
      · simp [aset, alookup, h, Ne.symm h]
  | cons p rest ih =>
      obtain ⟨pk, pv⟩ := p
      by_cases h1 : pk = k
      · subst h1
        by_cases h2 : pk = k'
        · subst h2
          simp [aset, alookup]
        · simp [aset, alookup, h2, Ne.symm h2]
      · by_cases h2 : pk = k'
        · subst h2
          simp [aset, alookup, h1]
        · simp [aset, alookup, h1, h2, ih]

theorem mem_aset {α : Type} (l : List (String × α)) (k : String) (v : α)
    (p : String × α) (hp : p ∈ aset l k v) : p = (k, v) ∨ p ∈ l := by
  induction l with
  | nil => simpa [aset] using hp
  | cons q rest ih =>
      obtain ⟨qk, qv⟩ := q
      by_cases h1 : qk = k
      · simp [aset, h1] at hp
        rcases hp with h | h
        · exact Or.inl h
        · exact Or.inr (List.mem_cons_of_mem _ h)
      · simp [aset, h1] at hp
        rcases hp with h | h
        · exact Or.inr (by simp [h])
        · rcases ih h with h2 | h2
          · exact Or.inl h2
          · exact Or.inr (List.mem_cons_of_mem _ h2)

theorem alookup_mem {α : Type} {l : List (String × α)} {k : String} {v : α}
    (h : alookup l k = some v) : (k, v) ∈ l := by
  induction l with
  | nil => simp [alookup] at h
  | cons p rest ih =>
      obtain ⟨pk, pv⟩ := p
      by_cases hk : pk = k
      · subst hk
        simp [alookup] at h
        simp [h]
      · simp [alookup, hk] at h
        exact List.mem_cons_of_mem _ (ih h)

theorem getEv_nodup {r : BusRegistry} (hw : wfReg r) {p : String × Events}
    (hp : p ∈ r) (e : String) : (getEv p.2 e).Nodup := by
  unfold getEv
  cases hlk : alookup p.2 e with
  | none => simp
  | some hs => simpa using hw.2 p hp (e, hs) (alookup_mem hlk)

theorem mem_runHandlers {c : Call} {b : String} {k : CallKind} {hs : List Handler}
    (hc : c ∈ runHandlers b k hs) :
    c.bus = b ∧ c.kind = k ∧ c.handler ∈ hs ∧ c.caught = c.handler.throws := by
  rcases List.mem_map.1 hc with ⟨h, hmem, heq⟩
  subst heq
  exact ⟨rfl, rfl, hmem, rfl⟩

theorem count_runHandlers_self (b : String) (k : CallKind) (hs : List Handler)
    (h : Handler) :
    List.count (Call.mk b h k h.throws) (runHandlers b k hs) = List.count h hs := by
  unfold runHandlers
  exact List.count_map_of_injective hs (fun x => Call.mk b x k x.throws)
    (fun h1 h2 heq => congrArg Call.handler heq) h

theorem count_runHandlers_ne (b : String) (k : CallKind) (hs : List Handler)
    (c : Call) (hc : c.bus ≠ b ∨ c.kind ≠ k) :
    List.count c (runHandlers b k hs) = 0 := by
  refine List.count_eq_zero.2 (fun hmem => ?_)
  rcases mem_runHandlers hmem with ⟨h1, h2, _, _⟩
  rcases hc with hb | hk
  · exact hb h1
  · exact hk h2

theorem count_fanout_zero (id e : String) (r : BusRegistry) (c : Call)
    (hb : ∀ p ∈ r, p.1 ≠ c.bus) :
    List.count c (fanoutCalls id e r) = 0 := by
  induction r with
  | nil => simp [fanoutCalls]
  | cons q rest ih =>
      simp only [fanoutCalls]
      by_cases hq : q.1 = id
      · rw [if_pos hq]
        exact ih (fun p hp => hb p (List.mem_cons_of_mem _ hp))
      · rw [if_neg hq, List.count_append, List.count_append,
          count_runHandlers_ne _ _ _ _ (Or.inl (Ne.symm (hb q (List.mem_cons_self _ _)))),
          count_runHandlers_ne _ _ _ _ (Or.inl (Ne.symm (hb q (List.mem_cons_self _ _)))),
          ih (fun p hp => hb p (List.mem_cons_of_mem _ hp))]

theorem count_fanout_target (id e : String) (r : BusRegistry)
    (hkeys : (r.map Prod.fst).Nodup) {p0 : String × Events}
    (hp0 : p0 ∈ r) (hne : p0.1 ≠ id) (h : Handler) (k : CallKind) :
    List.count (Call.mk p0.1 h k h.throws) (fanoutCalls id e r)
      = List.count h (kindList p0 e k) := by
  induction r with
  | nil => simp at hp0
  | cons q rest ih =>
      have hq1 : q.1 ∉ rest.map Prod.fst := (List.nodup_cons.1 (by simpa using hkeys)).1
      have htl : (rest.map Prod.fst).Nodup := (List.nodup_cons.1 (by simpa using hkeys)).2
      rcases List.mem_cons.1 hp0 with hq | hq
      · subst hq
        have hrest : ∀ p ∈ rest, p.1 ≠ (Call.mk p0.1 h k h.throws).bus := by
          intro p hp hcontra
          have hcontra' : p.1 = p0.1 := hcontra
          refine hq1 ?_
          rw [← hcontra']
          exact List.mem_map_of_mem Prod.fst hp
        simp only [fanoutCalls]
        rw [if_neg hne, List.count_append, List.count_append,
          count_fanout_zero id e rest _ hrest]
        cases k with
        | specific =>
            rw [count_runHandlers_self,
              count_runHandlers_ne _ _ _ _ (Or.inr (by simp))]
            simp [kindList]
        | listenAll =>
            rw [count_runHandlers_self,
              count_runHandlers_ne _ _ _ _ (Or.inr (by simp))]
            simp [kindList]
      · have hqne : q.1 ≠ p0.1 := by
          intro hcontra
          exact hq1 (by simpa [hcontra] using List.mem_map_of_mem Prod.fst hq)
        simp only [fanoutCalls]
        by_cases hqid : q.1 = id
        · rw [if_pos hqid]
          exact ih htl hq
        · rw [if_neg hqid, List.count_append, List.count_append,
            count_runHandlers_ne _ _ _ _ (Or.inl (Ne.symm hqne)),
            count_runHandlers_ne _ _ _ _ (Or.inl (Ne.symm hqne)),
            ih htl hq]
          simp

theorem emitReg_foldl (id e : String) (l : BusRegistry) (b : List Call) :
    l.foldl
      (fun acc p =>
        if p.1 = id then acc
        else acc ++ (runHandlers p.1 .specific (getEv p.2 e)
          ++ runHandlers p.1 .listenAll (getEv p.2 "_all")))
      b
    = b ++ fanoutCalls id e l := by
  induction l generalizing b with
  | nil => simp [fanoutCalls]
  | cons p rest ih =>
      rw [List.foldl_cons, ih]
      by_cases hp : p.1 = id
      · simp [hp, fanoutCalls]
      · simp [hp, fanoutCalls, List.append_assoc]

theorem emitReg_eq (r : BusRegistry) (id e : String) :
    emitReg r id e
      = runHandlers id .specific (getEv (getBus r id) e)
        ++ runHandlers id .listenAll (getEv (getBus r id) "_all")
        ++ (if isPrivate e then [] else fanoutCalls id e r) := by
  cases hp : isPrivate e
  · simp only [emitReg, hp, Bool.false_eq_true, if_false]
    rw [emitReg_foldl, List.append_assoc]
  · simp only [emitReg, hp, if_true]
    rw [List.append_nil]

/-- C1: `$emit` invokes, in order, (1) this bus's handlers for the event,
(2) this bus's listen-all handlers, and (3) — only when the event name
starts with neither `state:` nor `_` — the per-event and listen-all
handlers of every other registered bus, each exactly once; a `state:` or
`_`-prefixed event never invokes handlers registered on a different bus. -/
theorem emit_fanout_isolation (r : BusRegistry) (id e : String) (hw : wfReg r) :
    (emitReg r id e
      = runHandlers id .specific (getEv (getBus r id) e)
        ++ runHandlers id .listenAll (getEv (getBus r id) "_all")
        ++ (if isPrivate e then [] else fanoutCalls id e r))
    ∧ (isPrivate e = true → ∀ c ∈ emitReg r id e, c.bus = id)
    ∧ (isPrivate e = false → ∀ p ∈ r, p.1 ≠ id →
        (∀ h ∈ getEv p.2 e,
          List.count (Call.mk p.1 h .specific h.throws) (emitReg r id e) = 1)
        ∧ (∀ h ∈ getEv p.2 "_all",
          List.count (Call.mk p.1 h .listenAll h.throws) (emitReg r id e) = 1)) := by
  refine ⟨emitReg_eq r id e, ?_, ?_⟩
  · intro hp c hc
    rw [emitReg_eq] at hc
    simp [hp] at hc
    rcases hc with hc | hc
    · exact (mem_runHandlers hc).1
    · exact (mem_runHandlers hc).1
  · intro hp p hpr hpne
    constructor
    · intro h hmem
      rw [emitReg_eq, hp]
      simp only [Bool.false_eq_true, if_false, List.count_append]
      rw [count_runHandlers_ne _ _ _ _ (Or.inl hpne),
        count_runHandlers_ne _ _ _ _ (Or.inl hpne),
        count_fanout_target id e r hw.1 hpr hpne h CallKind.specific]
      simpa [kindList] using
        List.count_eq_one_of_mem (getEv_nodup hw hpr e) hmem
    · intro h hmem
      rw [emitReg_eq, hp]
      simp only [Bool.false_eq_true, if_false, List.count_append]
      rw [count_runHandlers_ne _ _ _ _ (Or.inl hpne),
        count_runHandlers_ne _ _ _ _ (Or.inl hpne),
        count_fanout_target id e r hw.1 hpr hpne h CallKind.listenAll]
      simpa [kindList] using
        List.count_eq_one_of_mem (getEv_nodup hw hpr "_all") hmem

/-- Witness for C1 at a concrete three-bus registry. -/
theorem emit_fanout_isolation_witness :
    wfReg [("main", [("_all", [])]),
        ("react-child", [("order:placed", [⟨1, false⟩]), ("_all", [⟨2, false⟩])]),
        ("vue-child", [("_all", []), ("order:placed", [⟨3, true⟩])])]
    ∧ (isPrivate "order:placed" = false →
        ∀ p ∈ [("main", [("_all", [])]),
            ("react-child", [("order:placed", [⟨1, false⟩]), ("_all", [⟨2, false⟩])]),
            ("vue-child", [("_all", []), ("order:placed", [⟨3, true⟩])])],
          p.1 ≠ "main" →
        (∀ h ∈ getEv p.2 "order:placed",
          List.count (Call.mk p.1 h .specific h.throws)
            (emitReg [("main", [("_all", [])]),
              ("react-child", [("order:placed", [⟨1, false⟩]), ("_all", [⟨2, false⟩])]),
              ("vue-child", [("_all", []), ("order:placed", [⟨3, true⟩])])] "main" "order:placed") = 1)
        ∧ (∀ h ∈ getEv p.2 "_all",
          List.count (Call.mk p.1 h .listenAll h.throws)
            (emitReg [("main", [("_all", [])]),
              ("react-child", [("order:placed", [⟨1, false⟩]), ("_all", [⟨2, false⟩])]),
              ("vue-child", [("_all", []), ("order:placed", [⟨3, true⟩])])] "main" "order:placed") = 1)) :=
  ⟨by decide,
    (emit_fanout_isolation
      [("main", [("_all", [])]),
        ("react-child", [("order:placed", [⟨1, false⟩]), ("_all", [⟨2, false⟩])]),
        ("vue-child", [("_all", []), ("order:placed", [⟨3, true⟩])])]
      "main" "order:placed" (by decide)).2.2⟩

theorem getEv_aset (es : Events) (e e' : String) (hs : List Handler) :
    getEv (aset es e hs) e' = if e' = e then hs else getEv es e' := by
  unfold getEv
  rw [alookup_aset]
  by_cases h : e' = e <;> simp [h]

theorem getBus_aset (r : BusRegistry) (id id' : String) (es : Events) :
    getBus (aset r id es) id' = if id' = id then es else getBus r id' := by
  unfold getBus
  rw [alookup_aset]
  by_cases h : id' = id <;> simp [h]

theorem aset_lookup_self {α : Type} {l : List (String × α)} {k : String} {v : α}
    (h : alookup l k = some v) : aset l k v = l := by
  induction l with
  | nil => simp [alookup] at h
  | cons p rest ih =>
      obtain ⟨pk, pv⟩ := p
      by_cases hk : pk = k
      · subst hk
        simp [alookup] at h
        simp [aset, h]
      · simp [alookup, hk] at h
        simp [aset, hk, ih h]

theorem nat_sum_zero {l : List Nat} (h : l.sum = 0) : ∀ x ∈ l, x = 0 := by
  induction l with
  | nil => simp
  | cons a rest ih =>
      rw [List.sum_cons] at h
      intro x hx
      rcases List.mem_cons.1 hx with h1 | h1
      · omega
      · exact ih (by omega) x h1

theorem occCount_zero {r : BusRegistry} {h : Handler} (h0 : occCount r h = 0) :
    ∀ p ∈ r, ∀ ev ∈ p.2, List.count h ev.2 = 0 := by
  intro p hp ev hev
  have hp0 : (p.2.map (fun ev => List.count h ev.2)).sum = 0 :=
    nat_sum_zero h0 _ (List.mem_map_of_mem _ hp)
  exact nat_sum_zero hp0 _ (List.mem_map_of_mem _ hev)

theorem getEv_count_zero {r : BusRegistry} {h : Handler} (h0 : occCount r h = 0)
    {p : String × Events} (hp : p ∈ r) (e : String) :
    List.count h (getEv p.2 e) = 0 := by
  unfold getEv
  cases hlk : alookup p.2 e with
  | none => simp
  | some hs => simpa using occCount_zero h0 p hp (e, hs) (alookup_mem hlk)

theorem getBus_count_zero {r : BusRegistry} {h : Handler} (h0 : occCount r h = 0)
    (id e : String) : List.count h (getEv (getBus r id) e) = 0 := by
  unfold getBus
  cases hlk : alookup r id with
  | none => simp [getEv, alookup]
  | some es => simpa using getEv_count_zero h0 (alookup_mem hlk) e

theorem mem_fanoutCalls {c : Call} {id e : String} {r : BusRegistry}
    (hc : c ∈ fanoutCalls id e r) :
    ∃ p ∈ r, p.1 ≠ id ∧
      (c ∈ runHandlers p.1 .specific (getEv p.2 e)
        ∨ c ∈ runHandlers p.1 .listenAll (getEv p.2 "_all")) := by
  induction r with
  | nil => simp [fanoutCalls] at hc
  | cons q rest ih =>
      simp only [fanoutCalls] at hc
      by_cases hq : q.1 = id
      · rw [if_pos hq] at hc
        rcases ih hc with ⟨p, hp, hpne, hpc⟩
        exact ⟨p, List.mem_cons_of_mem _ hp, hpne, hpc⟩
      · rw [if_neg hq] at hc
        rcases List.mem_append.1 hc with hc1 | hc2
        · rcases List.mem_append.1 hc1 with hc1 | hc1
          · exact ⟨q, List.mem_cons_self _ _, hq, Or.inl hc1⟩
          · exact ⟨q, List.mem_cons_self _ _, hq, Or.inr hc1⟩
        · rcases ih hc2 with ⟨p, hp, hpne, hpc⟩
          exact ⟨p, List.mem_cons_of_mem _ hp, hpne, hpc⟩

theorem map_handler_runHandlers (b : String) (k : CallKind) (hs : List Handler) :
    (runHandlers b k hs).map Call.handler = hs := by
  unfold runHandlers
  rw [List.map_map]
  exact List.map_id'' (fun x => rfl) hs

/-- C2 counterexample: the listen-all array is stored under the `_all`
key of the same events object that `$on` writes to, so for the event name
`_all` a handler registered exactly once via `$on` is invoked twice by a
single `$emit` — once by the per-event loop and once by the listen-all
loop — refuting "a subsequent emit invokes the handler exactly once" for
every event name. -/
theorem on_emit_once_counterexample :
    ((emitReg (onReg [("b", [("_all", [])])] "b" "_all" ⟨0, false⟩) "b" "_all").map
        Call.handler).count ⟨0, false⟩ = 2 ∧
    ¬ (((emitReg (onReg [("b", [("_all", [])])] "b" "_all" ⟨0, false⟩) "b" "_all").map
        Call.handler).count ⟨0, false⟩ = 1) := by
  constructor <;> decide

theorem onReg_mem_id {r : BusRegistry} {id e : String} {h : Handler}
    (hm : h ∈ getEv (getBus r id) e) : onReg r id e h = r := by
  unfold onReg
  rw [if_pos hm]

/-- C2 (amended): for every event name other than the reserved key `_all`,
registering a handler that is already registered is a no-op on the handler
store, a subsequent `$emit` of that event invokes the handler exactly
once, and `$on` returns the bus itself. (For the event name `_all` itself
registration is still idempotent, but one emit invokes the handler twice,
because the listen-all array doubles as the handler array of the event
named `_all`; see the counterexample.) -/
theorem on_idempotent_amended (b : EventBus) (r : BusRegistry) (e : String)
    (h : Handler) (he : e ≠ "_all") (h0 : occCount r h = 0) :
    (EventBus.on b r e h).1 = b
    ∧ onReg (onReg r b.id e h) b.id e h = onReg r b.id e h
    ∧ List.count h ((emitReg (onReg r b.id e h) b.id e).map Call.handler) = 1 := by
  have hcnt : List.count h (getEv (getBus r b.id) e) = 0 := getBus_count_zero h0 b.id e
  have hnm : h ∉ getEv (getBus r b.id) e := List.count_eq_zero.1 hcnt
  have hr1 : onReg r b.id e h
      = aset r b.id (aset (getBus r b.id) e (getEv (getBus r b.id) e ++ [h])) := by
    unfold onReg
    rw [if_neg hnm]
  have hbus1 : getBus (onReg r b.id e h) b.id
      = aset (getBus r b.id) e (getEv (getBus r b.id) e ++ [h]) := by
    rw [hr1, getBus_aset]
    simp
  have hev1 : getEv (getBus (onReg r b.id e h) b.id) e
      = getEv (getBus r b.id) e ++ [h] := by
    rw [hbus1, getEv_aset]
    simp
  have hall1 : getEv (getBus (onReg r b.id e h) b.id) "_all"
      = getEv (getBus r b.id) "_all" := by
    rw [hbus1, getEv_aset, if_neg (Ne.symm he)]
  refine ⟨rfl, ?_, ?_⟩
  · exact onReg_mem_id (by rw [hev1]; exact List.mem_append_right _ (by simp))
  · have k1 : List.count h (getEv (getBus r b.id) e ++ [h]) = 1 := by
      rw [List.count_append, hcnt]
      simp
    have k2 : List.count h (getEv (getBus r b.id) "_all") = 0 :=
      getBus_count_zero h0 b.id "_all"
    have k3 : List.count h
        ((if isPrivate e then ([] : List Call)
          else fanoutCalls b.id e (onReg r b.id e h)).map Call.handler) = 0 := by
      cases hpriv : isPrivate e
      · simp only [Bool.false_eq_true, if_false]
        refine List.count_eq_zero.2 ?_
        intro hmem'
        rcases List.mem_map.1 hmem' with ⟨c, hc, hch⟩
        rcases mem_fanoutCalls hc with ⟨p, hp, hpne, hpc⟩
        rw [hr1] at hp
        rcases mem_aset _ _ _ _ hp with h1 | h1
        · exact hpne (by rw [h1])
        · rcases hpc with hpc | hpc
          · have hmem2 := (mem_runHandlers hpc).2.2.1
            rw [hch] at hmem2
            exact List.count_eq_zero.1 (getEv_count_zero h0 h1 e) hmem2
          · have hmem2 := (mem_runHandlers hpc).2.2.1
            rw [hch] at hmem2
            exact List.count_eq_zero.1 (getEv_count_zero h0 h1 "_all") hmem2
      · simp
    rw [emitReg_eq, List.map_append, List.count_append, List.map_append,
      List.count_append, map_handler_runHandlers, map_handler_runHandlers,
      hev1, hall1, k1, k2, k3]

/-- Witness for the amended C2 at a concrete bus, event and handler. -/
theorem on_idempotent_amended_witness :
    ("child:message" ≠ "_all" ∧ occCount [("main", [("_all", [])])] ⟨5, false⟩ = 0)
    ∧ ((EventBus.on ⟨"main"⟩ [("main", [("_all", [])])] "child:message" ⟨5, false⟩).1 = ⟨"main"⟩
      ∧ onReg (onReg [("main", [("_all", [])])] "main" "child:message" ⟨5, false⟩)
          "main" "child:message" ⟨5, false⟩
        = onReg [("main", [("_all", [])])] "main" "child:message" ⟨5, false⟩
      ∧ List.count ⟨5, false⟩
          ((emitReg (onReg [("main", [("_all", [])])] "main" "child:message" ⟨5, false⟩)
            "main" "child:message").map Call.handler) = 1) :=
  ⟨⟨by decide, by decide⟩,
    on_idempotent_amended ⟨"main"⟩ [("main", [("_all", [])])] "child:message" ⟨5, false⟩
      (by decide) (by decide)⟩

theorem alookup_map_values {α β : Type} (f : α → β) (l : List (String × α)) (k : String) :
    alookup (l.map (fun p => (p.1, f p.2))) k = (alookup l k).map f := by
  induction l with
  | nil => simp [alookup]
  | cons p rest ih =>
      obtain ⟨pk, pv⟩ := p
      by_cases h : pk = k <;> simp [alookup, h, ih]

theorem getEv_calm (es : Events) (e : String) :
    getEv (calmEvents es) e = (getEv es e).map calmHandler := by
  unfold getEv calmEvents
  rw [alookup_map_values]
  cases alookup es e <;> simp

theorem getBus_calm (r : BusRegistry) (id : String) :
    getBus (calmReg r) id = calmEvents (getBus r id) := by
  unfold getBus calmReg
  rw [alookup_map_values]
  cases alookup r id <;> simp [calmEvents]

theorem shape_runHandlers_calm (b : String) (k : CallKind) (hs : List Handler) :
    (runHandlers b k (hs.map calmHandler)).map callShape
      = (runHandlers b k hs).map callShape := by
  unfold runHandlers callShape calmHandler
  simp [List.map_map, Function.comp]

theorem calmReg_cons (p : String × Events) (rest : BusRegistry) :
    calmReg (p :: rest) = (p.1, calmEvents p.2) :: calmReg rest := rfl

theorem shape_fanout_calm (id e : String) (r : BusRegistry) :
    (fanoutCalls id e (calmReg r)).map callShape
      = (fanoutCalls id e r).map callShape := by
  induction r with
  | nil => simp [calmReg, fanoutCalls]
  | cons p rest ih =>
      rw [calmReg_cons]
      simp only [fanoutCalls]
      by_cases hp : p.1 = id
      · rw [if_pos hp, if_pos hp, ih]
      · rw [if_neg hp, if_neg hp, List.map_append, List.map_append,
          List.map_append, List.map_append, getEv_calm, getEv_calm,
          shape_runHandlers_calm, shape_runHandlers_calm, ih]

/-- C4: handler errors are isolated: the sequence of invocations performed
by one `$emit` — which handlers run, from which bus's store, in which
order — is identical to the sequence that would run if no handler threw
(so a throwing handler never prevents a later handler, on this or any
other registered bus, from running), every invocation of a throwing
handler is recorded as caught-and-logged, and `$emit` always returns a
complete trace to its caller instead of propagating an exception. -/
theorem emit_error_isolation (r : BusRegistry) (id e : String) :
    (emitReg (calmReg r) id e).map callShape = (emitReg r id e).map callShape
    ∧ ∀ c ∈ emitReg r id e, c.caught = c.handler.throws := by
  constructor
  · rw [emitReg_eq, emitReg_eq, getBus_calm, getEv_calm, getEv_calm,
      List.map_append, List.map_append, List.map_append, List.map_append,
      shape_runHandlers_calm, shape_runHandlers_calm]
    cases hpriv : isPrivate e
    · simp only [Bool.false_eq_true, if_false]
      rw [shape_fanout_calm]
    · simp only [if_true]
  · intro c hc
    rw [emitReg_eq] at hc
    rcases List.mem_append.1 hc with hc1 | hc2
    · rcases List.mem_append.1 hc1 with hc1 | hc1 <;>
        exact (mem_runHandlers hc1).2.2.2
    · cases hpriv : isPrivate e
      · rw [hpriv] at hc2
        simp only [Bool.false_eq_true, if_false] at hc2
        rcases mem_fanoutCalls hc2 with ⟨p, _, _, hpc | hpc⟩ <;>
          exact (mem_runHandlers hpc).2.2.2
      · rw [hpriv] at hc2
        simp at hc2

theorem mkEventBus_stable {r : BusRegistry} {id : String} {es : Events}
    {hs : List Handler} (hes : alookup r id = some es)
    (hhs : alookup es "_all" = some hs) : mkEventBus r id = r := by
  simp only [mkEventBus]
  have h0 : getBus r id = es := by
    unfold getBus
    rw [hes]
    rfl
  have h1 : getEv es "_all" = hs := by
    unfold getEv
    rw [hhs]
    rfl
  rw [h0, h1, aset_lookup_self hhs, aset_lookup_self hes]

/-- C10: constructing an `EventBus` with an id that is already present in
the process-wide registry reuses the existing handler store rather than
starting empty: after registering a handler through a first instance, a
second construction with the same id leaves the registry unchanged, the
handler is still registered, and an emit performed through the second of
the two instances invokes it. -/
theorem eventbus_shared_store (r : BusRegistry) (id e : String) (h : Handler) :
    mkEventBus (onReg (mkEventBus r id) id e h) id = onReg (mkEventBus r id) id e h
    ∧ h ∈ getEv (getBus (mkEventBus (onReg (mkEventBus r id) id e h) id) id) e
    ∧ ∃ c ∈ emitReg (mkEventBus (onReg (mkEventBus r id) id e h) id) id e,
        c.handler = h ∧ c.bus = id ∧ c.kind = CallKind.specific := by
  have hX : alookup (mkEventBus r id) id
      = some (aset (getBus r id) "_all" (getEv (getBus r id) "_all")) := by
    unfold mkEventBus
    rw [alookup_aset]
    simp
  have hXall : alookup (aset (getBus r id) "_all" (getEv (getBus r id) "_all")) "_all"
      = some (getEv (getBus r id) "_all") := by
    rw [alookup_aset]
    simp
  have hbus0 : getBus (mkEventBus r id) id
      = aset (getBus r id) "_all" (getEv (getBus r id) "_all") := by
    unfold getBus
    rw [hX]
    rfl
  by_cases hmem : h ∈ getEv (getBus (mkEventBus r id) id) e
  · have hr1 : onReg (mkEventBus r id) id e h = mkEventBus r id := onReg_mem_id hmem
    have hstable : mkEventBus (onReg (mkEventBus r id) id e h) id
        = onReg (mkEventBus r id) id e h := by
      rw [hr1]
      exact mkEventBus_stable hX hXall
    refine ⟨hstable, ?_, ?_⟩
    · rw [hstable, hr1]
      exact hmem
    · refine ⟨⟨id, h, .specific, h.throws⟩, ?_, rfl, rfl, rfl⟩
      rw [hstable, hr1, emitReg_eq]
      have hin : Call.mk id h .specific h.throws
          ∈ runHandlers id .specific (getEv (getBus (mkEventBus r id) id) e) := by
        unfold runHandlers
        exact List.mem_map_of_mem _ hmem
      exact List.mem_append.2 (Or.inl (List.mem_append.2 (Or.inl hin)))
  · have hr1 : onReg (mkEventBus r id) id e h
        = aset (mkEventBus r id) id
            (aset (getBus (mkEventBus r id) id) e
              (getEv (getBus (mkEventBus r id) id) e ++ [h])) := by
      unfold onReg
      rw [if_neg hmem]
    have hlk1 : alookup (onReg (mkEventBus r id) id e h) id
        = some (aset (getBus (mkEventBus r id) id) e
            (getEv (getBus (mkEventBus r id) id) e ++ [h])) := by
      rw [hr1, alookup_aset]
      simp
    have hbus1 : getBus (onReg (mkEventBus r id) id e h) id
        = aset (getBus (mkEventBus r id) id) e
            (getEv (getBus (mkEventBus r id) id) e ++ [h]) := by
      unfold getBus
      rw [hlk1]
      rfl
    have hall1 : ∃ hs1, alookup (aset (getBus (mkEventBus r id) id) e
        (getEv (getBus (mkEventBus r id) id) e ++ [h])) "_all" = some hs1 := by
      by_cases hae : ("_all" : String) = e
      · exact ⟨_, by rw [alookup_aset, if_pos hae]⟩
      · refine ⟨getEv (getBus r id) "_all", ?_⟩
        rw [alookup_aset, if_neg hae, hbus0, hXall]
    rcases hall1 with ⟨hs1, hhs1⟩
    have hstable : mkEventBus (onReg (mkEventBus r id) id e h) id
        = onReg (mkEventBus r id) id e h :=
      mkEventBus_stable hlk1 hhs1
    have hmem1 : h ∈ getEv (getBus (onReg (mkEventBus r id) id e h) id) e := by
      rw [hbus1, getEv_aset]
      simp
    refine ⟨hstable, ?_, ?_⟩
    · rw [hstable]
      exact hmem1
    · refine ⟨⟨id, h, .specific, h.throws⟩, ?_, rfl, rfl, rfl⟩
      rw [hstable, emitReg_eq]
      have hin : Call.mk id h .specific h.throws
          ∈ runHandlers id .specific
            (getEv (getBus (onReg (mkEventBus r id) id e h) id) e) := by
        unfold runHandlers
        exact List.mem_map_of_mem _ hmem1
      exact List.mem_append.2 (Or.inl (List.mem_append.2 (Or.inl hin)))

theorem alookup_append {α : Type} (l1 l2 : List (String × α)) (k : String) :
    alookup (l1 ++ l2) k
      = match alookup l1 k with
        | some v => some v
        | none => alookup l2 k := by
  induction l1 with
  | nil => simp [alookup]
  | cons q rest ih =>
      obtain ⟨qk, qv⟩ := q
      by_cases h : qk = k <;> simp [alookup, h, ih]

theorem alookup_merge_map {V : Type} (pp l : List (String × V)) (k : String) :
    alookup (l.map (fun q => (q.1, (alookup pp q.1).getD q.2))) k
      = (alookup l k).map (fun v => (alookup pp k).getD v) := by
  induction l with
  | nil => simp [alookup]
  | cons q rest ih =>
      obtain ⟨qk, qv⟩ := q
      by_cases h : qk = k
      · subst h
        simp [alookup]
      · simp [alookup, h, ih]

theorem alookup_of_mem_nodup {α : Type} {l : List (String × α)} {k : String} {v : α}
    (hn : (l.map Prod.fst).Nodup) (hm : (k, v) ∈ l) : alookup l k = some v := by
  induction l with
  | nil => simp at hm
  | cons q rest ih =>
      obtain ⟨qk, qv⟩ := q
      have hq1 : qk ∉ rest.map Prod.fst := (List.nodup_cons.1 (by simpa using hn)).1
      have htl : (rest.map Prod.fst).Nodup := (List.nodup_cons.1 (by simpa using hn)).2
      rcases List.mem_cons.1 hm with h | h
      · obtain ⟨h1, h2⟩ := Prod.mk.injEq .. ▸ h
        simp [alookup, h1.symm, h2]
      · by_cases hk : qk = k
        · exact absurd (by simpa [hk] using List.mem_map_of_mem Prod.fst h) hq1
        · simp [alookup, hk]
          exact ih htl h

theorem alookup_isSome_of_mem {α : Type} {l : List (String × α)} {q : String × α}
    (h : q ∈ l) : (alookup l q.1).isSome := by
  induction l with
  | nil => simp at h
  | cons p rest ih =>
      obtain ⟨pk, pv⟩ := p
      by_cases hk : pk = q.1
      · simp [alookup, hk]
      · rcases List.mem_cons.1 h with h1 | h1
        · exact absurd (congrArg Prod.fst h1).symm hk
        · simp [alookup, hk]
          exact ih h1

theorem map_fix_of_mem {α : Type} {l : List α} {f : α → α}
    (h : ∀ x ∈ l, f x = x) : l.map f = l := by
  induction l with
  | nil => rfl
  | cons a rest ih =>
      simp [h a (List.mem_cons_self _ _),
        ih (fun x hx => h x (List.mem_cons_of_mem _ hx))]

theorem alookup_spreadMerge {V : Type} (old p : List (String × V)) (k : String) :
    alookup (spreadMerge old p) k
      = match alookup old k with
        | some v => some ((alookup p k).getD v)
        | none => alookup p k := by
  unfold spreadMerge
  rw [alookup_append, alookup_merge_map]
  cases hk : alookup old k with
  | none =>
      simp only [Option.map_none']
      induction p with
      | nil => simp
      | cons q rest ih =>
          obtain ⟨qk, qv⟩ := q
          by_cases h : qk = k
          · subst h
            simp [List.filter_cons, hk, alookup]
          · by_cases hpred : (alookup old qk).isNone
            · simp only [List.filter_cons, hpred, if_true]
              simp [alookup, h, ih]
            · simp only [List.filter_cons, hpred, if_false]
              simp [alookup, h] at ih ⊢
              exact ih
  | some v => simp

theorem spreadMerge_mem_val {V : Type} {s p : List (String × V)}
    (hp : (p.map Prod.fst).Nodup) {q : String × V} (hq : q ∈ spreadMerge s p)
    {w : V} (hw : alookup p q.1 = some w) : q.2 = w := by
  unfold spreadMerge at hq
  rcases List.mem_append.1 hq with h | h
  · rcases List.mem_map.1 h with ⟨q0, hq0, heq⟩
    have h1 : q.1 = q0.1 := by rw [← heq]
    have h2 : q.2 = (alookup p q0.1).getD q0.2 := by rw [← heq]
    rw [h2, ← h1, hw]
    rfl
  · have hmem : q ∈ p := (List.mem_filter.1 h).1
    have := alookup_of_mem_nodup hp (by simpa using hmem)
    rw [hw] at this
    exact (Option.some.injEq .. ▸ this).symm

theorem spreadMerge_idem {V : Type} (s p : List (String × V))
    (hp : (p.map Prod.fst).Nodup) :
    spreadMerge (spreadMerge s p) p = spreadMerge s p := by
  have h1 : (spreadMerge s p).map
      (fun q => (q.1, (alookup p q.1).getD q.2)) = spreadMerge s p := by
    apply map_fix_of_mem
    intro q hq
    cases hw : alookup p q.1 with
    | none => simp [hw]
    | some w =>
        have hval := spreadMerge_mem_val hp hq hw
        simp [hw, ← hval]
  have h2 : p.filter (fun q => (alookup (spreadMerge s p) q.1).isNone) = [] := by
    rw [List.filter_eq_nil_iff]
    intro q hq
    rw [alookup_spreadMerge]
    cases hs : alookup s q.1 with
    | none =>
        have := alookup_isSome_of_mem hq
        simp only []
        intro hcontra
        rw [Option.isNone_iff_eq_none] at hcontra
        rw [hcontra] at this
        simp at this
    | some v => simp
  show (spreadMerge s p).map (fun q => (q.1, (alookup p q.1).getD q.2))
      ++ p.filter (fun q => (alookup (spreadMerge s p) q.1).isNone)
    = spreadMerge s p
  rw [h1, h2, List.append_nil]

theorem setState_state {V : Type} [DecidableEq V] (m : StateManager V)
    (p : List (String × V)) :
    (m.setState p).sm.state = spreadMerge m.state p := by
  simp only [StateManager.setState]
  split <;> rfl

theorem setState_noop {V : Type} [DecidableEq V] (m : StateManager V)
    (p : List (String × V)) (hfix : spreadMerge m.state p = m.state) :
    (m.setState p).notified = false ∧ (m.setState p).emitted = none := by
  simp only [StateManager.setState]
  rw [if_neg (fun hne => hne hfix)]
  exact ⟨rfl, rfl⟩

/-- C3: `setState` shallow-merges the partial into the current state —
a key present in the partial ends up with the partial's value, a key
absent from the partial keeps its previous binding — and when the merge
produces no observable change (such as the same partial applied twice),
the second call neither notifies subscribers nor emits a bus broadcast. -/
theorem setState_merge_noop {V : Type} [DecidableEq V] (m : StateManager V)
    (p : List (String × V)) (k : String) (hp : (p.map Prod.fst).Nodup) :
    (∀ v, alookup p k = some v → alookup ((m.setState p).sm.state) k = some v)
    ∧ (alookup p k = none →
        alookup ((m.setState p).sm.state) k = alookup m.state k)
    ∧ ((m.setState p).sm.setState p).notified = false
    ∧ ((m.setState p).sm.setState p).emitted = none := by
  have hfix : spreadMerge ((m.setState p).sm.state) p = (m.setState p).sm.state := by
    rw [setState_state]
    exact spreadMerge_idem m.state p hp
  refine ⟨?_, ?_, (setState_noop _ p hfix).1, (setState_noop _ p hfix).2⟩
  · intro v hv
    rw [setState_state, alookup_spreadMerge]
    cases hk : alookup m.state k
    · simpa using hv
    · simp [hv]
  · intro hv
    rw [setState_state, alookup_spreadMerge]
    cases hk : alookup m.state k
    · simpa using hv
    · simp [hv]

/-- Witness for C3: from an empty connected manager, `setState` of the
object mapping a to 1 followed by `setState` of the object mapping b to 2
yields the snapshot mapping a to 1 and b to 2, and repeating the first
partial notifies nobody and broadcasts nothing. -/
theorem setState_merge_noop_witness :
    (([("a", 1)] : List (String × Nat)).map Prod.fst).Nodup
    ∧ ((((StateManager.mk ([] : List (String × Nat)) (some "main")
          (some "shared")).setState [("a", 1)]).sm.setState [("b", 2)]).sm.state
        = [("a", 1), ("b", 2)])
    ∧ ((∀ v, alookup [("a", 1)] "a" = some v →
          alookup (((StateManager.mk ([] : List (String × Nat)) (some "main")
            (some "shared")).setState [("a", 1)]).sm.state) "a" = some v)
      ∧ (alookup [("a", 1)] "a" = none →
          alookup (((StateManager.mk ([] : List (String × Nat)) (some "main")
            (some "shared")).setState [("a", 1)]).sm.state) "a"
          = alookup ([] : List (String × Nat)) "a")
      ∧ (((StateManager.mk ([] : List (String × Nat)) (some "main")
          (some "shared")).setState [("a", 1)]).sm.setState [("a", 1)]).notified = false
      ∧ (((StateManager.mk ([] : List (String × Nat)) (some "main")
          (some "shared")).setState [("a", 1)]).sm.setState [("a", 1)]).emitted = none) :=
  ⟨by decide, by decide,
    setState_merge_noop (StateManager.mk [] (some "main") (some "shared"))
      [("a", 1)] "a" (by decide)⟩

/-- C8: `startApp` throws synchronously, leaving the page untouched — no
iframe or transport created, no registry entry made — exactly when a
required option (name, url, el) is missing (or empty, which the source's
falsiness check treats the same) or the container selector resolves to no
element. -/
theorem startApp_fail_fast (q : String → Option Nat) (w : World) (o : StartOptions) :
    ((startApp q w o).2.isOk = false
      ↔ (falsy o.name || falsy o.url || falsy o.el
          || (q (o.el.getD "")).isNone) = true)
    ∧ ((startApp q w o).2.isOk = false → (startApp q w o).1 = w) := by
  cases hval : (falsy o.name || falsy o.url || falsy o.el)
  · simp only [startApp, hval, Bool.false_eq_true, if_false]
    cases hq : q (o.el.getD "")
    · simp [Except.isOk, Except.toBool]
    · cases halo : alookup w.sreg (o.name.getD "")
      · simp [halo, Except.isOk, Except.toBool]
      · by_cases halive : o.alive
        · simp [halo, halive, Except.isOk, Except.toBool]
        · simp [halo, halive, Except.isOk, Except.toBool]
  · simp [startApp, hval, Except.isOk, Except.toBool]

/-- Witness for C8: with the name missing, `startApp` throws and the page
is unchanged. -/
theorem startApp_fail_fast_witness :
    (startApp (fun _ => some 0) scenarioCWorld0
        { scenarioCOptions with name := none }).2.isOk = false
    ∧ (startApp (fun _ => some 0) scenarioCWorld0
        { scenarioCOptions with name := none }).1 = scenarioCWorld0 :=
  ⟨((startApp_fail_fast (fun _ => some 0) scenarioCWorld0
      { scenarioCOptions with name := none }).1).2 (by decide),
    (startApp_fail_fast (fun _ => some 0) scenarioCWorld0
      { scenarioCOptions with name := none }).2
      (((startApp_fail_fast (fun _ => some 0) scenarioCWorld0
        { scenarioCOptions with name := none }).1).2 (by decide))⟩

/-- C5, evaluated at the failing input (Scenario C in the default
web-component mode): the second `start` does replace the registry entry
with a fresh Sandbox holding a new iframe, but the first sandbox's
primary iframe — appended to `document.body` by `createIframe` — is still
attached to the document afterwards: the replacement path runs
`unmount()` (which never removes `this.iframe`) and evicts the entry,
instead of `destroy()` which would also remove the iframe, so the old
iframe is not removed from the DOM as the specification requires. -/
theorem startApp_replacement_leaks_iframe :
    (alookup scenarioCWorld1.sreg "x").map Sb.iframe = some (some 0)
    ∧ (0, Loc.inBody) ∈ scenarioCWorld1.dom
    ∧ (alookup scenarioCWorld2.sreg "x").map Sb.iframe = some (some 2)
    ∧ (0, Loc.inBody) ∈ scenarioCWorld2.dom
    ∧ (2, Loc.inBody) ∈ scenarioCWorld2.dom := by
  refine ⟨?_, ?_, ?_, ?_, ?_⟩ <;> decide

theorem unmountCont_fst (s : Sb) (w : World) (tr : List Step) :
    (unmountCont s w tr).1 = { s with mountFlag := false, unmountFlag := true } := by
  simp only [unmountCont]
  cases s.lcAfterUnmount with
  | none => rfl
  | some thr =>
      by_cases h1 : s.iframe.isNone
      · simp [h1]
      · by_cases h2 : thr <;> simp [h1, h2]

theorem unmountSb_flagged {s : Sb} (hf : s.unmountFlag = true) (w : World) :
    unmountSb s w = (s, w, []) := by
  simp only [unmountSb]
  rw [if_pos hf]

/-- C7 counterexample: a live sandbox whose `beforeUnmount` hook throws.
The throw is caught and logged, but `unmountFlag` — assigned only later
in the try block — is never set, so the second `unmount()` is not a no-op:
it runs the `beforeUnmount` teardown step a second time (two occurrences
across the two calls), refuting "the teardown runs at most once". -/
theorem unmount_idempotent_counterexample :
    List.count Step.beforeUnmountHook
        ((unmountSb throwingHookSb throwingHookWorld).2.2
          ++ (unmountSb (unmountSb throwingHookSb throwingHookWorld).1
              (unmountSb throwingHookSb throwingHookWorld).2.1).2.2) = 2
    ∧ (unmountSb (unmountSb throwingHookSb throwingHookWorld).1
          (unmountSb throwingHookSb throwingHookWorld).2.1).2.2 ≠ [] := by
  refine ⟨?_, ?_⟩ <;> decide

/-- C7 (amended): provided the `beforeUnmount` hook does not throw, once
`unmount()` has completed a subsequent `unmount()` changes neither the
sandbox nor the page and performs no teardown step (at most it logs a
caught error for a hook invoked while the iframe is absent), so the
teardown — beforeUnmount, the lifecycle:unmount envelopes, the bus clear,
the shadow detach, afterUnmount — runs at most once; in particular a
fresh Sandbox may be unmounted before `mount()` completes, safely and
idempotently. When `beforeUnmount` throws, the error is caught but
`unmountFlag` is never set and a second call repeats the `beforeUnmount`
attempt (see the counterexample). -/
theorem unmount_idempotent_amended (s : Sb) (w : World)
    (h : s.lcBeforeUnmount ≠ some true) :
    (unmountSb (unmountSb s w).1 (unmountSb s w).2.1).1 = (unmountSb s w).1
    ∧ (unmountSb (unmountSb s w).1 (unmountSb s w).2.1).2.1 = (unmountSb s w).2.1
    ∧ ∀ st ∈ (unmountSb (unmountSb s w).1 (unmountSb s w).2.1).2.2,
        st = Step.caughtError := by
  by_cases hf : s.unmountFlag
  · have e1 : unmountSb s w = (s, w, []) := unmountSb_flagged hf w
    refine ⟨?_, ?_, ?_⟩ <;> simp [e1]
  · cases hbu : s.lcBeforeUnmount with
    | none =>
        have e1 : unmountSb s w = unmountCont s w [] := by
          simp only [unmountSb, hbu]
          rw [if_neg hf]
        have hflag : (unmountSb s w).1.unmountFlag = true := by
          rw [e1, unmountCont_fst]
        have e2 := unmountSb_flagged hflag (unmountSb s w).2.1
        refine ⟨?_, ?_, ?_⟩ <;> simp [e2]
    | some thr =>
        cases thr with
        | true => exact absurd hbu h
        | false =>
            by_cases hin : s.iframe.isNone
            · have e1 : unmountSb s w = (s, w, [Step.caughtError]) := by
                simp only [unmountSb, hbu]
                rw [if_neg hf]
                simp [hin]
              refine ⟨?_, ?_, ?_⟩ <;> simp [e1]
            · have e1 : unmountSb s w = unmountCont s w [Step.beforeUnmountHook] := by
                simp only [unmountSb, hbu]
                rw [if_neg hf]
                simp [hin]
              have hflag : (unmountSb s w).1.unmountFlag = true := by
                rw [e1, unmountCont_fst]
              have e2 := unmountSb_flagged hflag (unmountSb s w).2.1
              refine ⟨?_, ?_, ?_⟩ <;> simp [e2]

/-- Witness for the amended C7: a fresh sandbox, unmounted twice before
any mount; the second call is a no-op. -/
theorem unmount_idempotent_amended_witness :
    freshSb.lcBeforeUnmount ≠ some true
    ∧ ((unmountSb (unmountSb freshSb freshWorld).1
          (unmountSb freshSb freshWorld).2.1).1 = (unmountSb freshSb freshWorld).1
      ∧ (unmountSb (unmountSb freshSb freshWorld).1
          (unmountSb freshSb freshWorld).2.1).2.1 = (unmountSb freshSb freshWorld).2.1
      ∧ ∀ st ∈ (unmountSb (unmountSb freshSb freshWorld).1
          (unmountSb freshSb freshWorld).2.1).2.2,
          st = Step.caughtError) :=
  ⟨by decide, unmount_idempotent_amended freshSb freshWorld (by decide)⟩

theorem mountCont_time (s : Sb) (t0 : Nat) (tr : List MStep) :
    (mountCont s t0 tr).1 = t0 + settleMs := by
  simp only [mountCont]
  cases s.lcAfterMount with
  | none => rfl
  | some thr =>
      by_cases h1 : s.iframe.isNone
      · simp [h1]
      · by_cases h2 : thr <;> simp [h1, h2]

theorem mountCont_head (s : Sb) (t0 : Nat) (x : MStep) (tr : List MStep) :
    ((mountCont s t0 (x :: tr)).2).head? = some x := by
  simp only [mountCont]
  cases s.lcAfterMount with
  | none => simp
  | some thr =>
      by_cases h1 : s.iframe.isNone
      · simp [h1]
      · by_cases h2 : thr <;> simp [h1, h2]

/-- C6: when the guest never delivers `ready`, `mount()` still resolves,
no later than the ready-wait timeout plus the settle interval, its first
action the logged timeout warning; and when nothing else goes wrong (no
hook present to throw, a live iframe, no shadow twin) it performs the
full mount sequence — warning, mount envelope, settle — resolving at
exactly timeout plus settle rather than hanging or rejecting. -/
theorem mount_bounded_readiness (s : Sb) (readyAt : Option Nat)
    (h : readyAt = none) :
    (mountSb s readyAt).1 ≤ readyTimeoutMs + settleMs
    ∧ (mountSb s readyAt).2.head? = some MStep.warnTimeout
    ∧ (s.lcBeforeMount = none → s.lcAfterMount = none →
        s.iframe.isSome = true → s.shadowIframe.isSome = false →
        (mountSb s readyAt).2
          = [MStep.warnTimeout, MStep.sendMountIframe, MStep.settle]
        ∧ (mountSb s readyAt).1 = readyTimeoutMs + settleMs) := by
  subst h
  refine ⟨?_, ?_, ?_⟩
  · simp only [mountSb]
    cases hbm : s.lcBeforeMount with
    | none =>
        rw [mountCont_time]
    | some thr =>
        by_cases h1 : s.iframe.isNone
        · simp only [h1, if_true]
          simp [readyTimeoutMs, settleMs]
        · by_cases h2 : thr
          · simp only [h1, h2, Bool.false_eq_true, if_false, if_true]
            simp [readyTimeoutMs, settleMs]
          · simp only [h1, h2, Bool.false_eq_true, if_false]
            rw [mountCont_time]
  · simp only [mountSb]
    cases hbm : s.lcBeforeMount with
    | none =>
        exact mountCont_head s readyTimeoutMs MStep.warnTimeout []
    | some thr =>
        by_cases h1 : s.iframe.isNone
        · simp [h1]
        · by_cases h2 : thr
          · simp [h1, h2]
          · simp only [h1, h2, Bool.false_eq_true, if_false]
            exact mountCont_head s readyTimeoutMs MStep.warnTimeout
              [MStep.beforeMountHook]
  · intro hbm ham hif hsh
    have hif' : s.iframe.isNone = false := by
      cases hi : s.iframe
      · rw [hi] at hif
        simp at hif
      · simp [hi]
    constructor
    · simp [mountSb, mountCont, hbm, ham, hif, hsh, hif']
    · simp [mountSb, mountCont, hbm, ham, hif, hsh, hif']

/-- Witness for C6 at a concrete live sandbox that never receives
`ready`. -/
theorem mount_bounded_readiness_witness :
    ((none : Option Nat) = none)
    ∧ ((mountSb { freshSb with iframe := some 4 } none).1
        ≤ readyTimeoutMs + settleMs
      ∧ (mountSb { freshSb with iframe := some 4 } none).2.head?
        = some MStep.warnTimeout
      ∧ (({ freshSb with iframe := some 4 } : Sb).lcBeforeMount = none →
          ({ freshSb with iframe := some 4 } : Sb).lcAfterMount = none →
          ({ freshSb with iframe := some 4 } : Sb).iframe.isSome = true →
          ({ freshSb with iframe := some 4 } : Sb).shadowIframe.isSome = false →
          (mountSb { freshSb with iframe := some 4 } none).2
            = [MStep.warnTimeout, MStep.sendMountIframe, MStep.settle]
          ∧ (mountSb { freshSb with iframe := some 4 } none).1
            = readyTimeoutMs + settleMs)) :=
  ⟨rfl, mount_bounded_readiness { freshSb with iframe := some 4 } none rfl⟩

/-- C9: the transport listener acts only on messages whose source equals
this sandbox's own iframe `contentWindow` — a message from any other
source, or arriving while there is no iframe, is dropped with no change
to the sandbox and no effect on the bus — and an envelope without a
`type` field (or with an unknown type, or missing data entirely) is
likewise ignored without error. -/
theorem message_admission (s : Sb) (m : Msg) :
    (s.iframe = none → handleMessage s m = (s, []))
    ∧ (∀ win, s.iframe = some win → m.source ≠ win → handleMessage s m = (s, []))
    ∧ (m.data = none → handleMessage s m = (s, []))
    ∧ (∀ d, m.data = some d → d.type = none → handleMessage s m = (s, []))
    ∧ (∀ d t, m.data = some d → d.type = some t →
        t ≠ "mfe-ready" → t ≠ "mfe-rendered" → t ≠ "mfe-event" →
        t ≠ "mfe-lifecycle" → handleMessage s m = (s, [])) := by
  refine ⟨?_, ?_, ?_, ?_, ?_⟩
  · intro h
    simp [handleMessage, h]
  · intro win hw hne
    simp [handleMessage, hw, hne]
  · intro h
    cases hif : s.iframe with
    | none => simp [handleMessage, hif]
    | some win =>
        by_cases hsrc : m.source ≠ win
        · simp [handleMessage, hif, hsrc]
        · simp [handleMessage, hif, hsrc, h]
  · intro d hd ht
    cases hif : s.iframe with
    | none => simp [handleMessage, hif]
    | some win =>
        by_cases hsrc : m.source ≠ win
        · simp [handleMessage, hif, hsrc]
        · simp [handleMessage, hif, hsrc, hd, ht]
  · intro d t hd ht h1 h2 h3 h4
    cases hif : s.iframe with
    | none => simp [handleMessage, hif]
    | some win =>
        by_cases hsrc : m.source ≠ win
        · simp [handleMessage, hif, hsrc]
        · simp [handleMessage, hif, hsrc, hd, ht, h1, h2, h3, h4]

/-- Witness for C9: a message from a foreign window is dropped, and a
matching-source message without a `type` is ignored. -/
theorem message_admission_witness :
    handleMessage { freshSb with iframe := some 7 } (Msg.mk 8 none)
      = ({ freshSb with iframe := some 7 }, [])
    ∧ handleMessage { freshSb with iframe := some 7 }
        (Msg.mk 7 (some ⟨none, some "ping", none, none, none⟩))
      = ({ freshSb with iframe := some 7 }, []) :=
  ⟨(message_admission { freshSb with iframe := some 7 } (Msg.mk 8 none)).2.1
      7 rfl (by decide),
    (message_admission { freshSb with iframe := some 7 }
        (Msg.mk 7 (some ⟨none, some "ping", none, none, none⟩))).2.2.2.1
      ⟨none, some "ping", none, none, none⟩ rfl rfl⟩

/-- Witness for C4 at a concrete registry holding a throwing handler. -/
theorem emit_error_isolation_witness :
    (emitReg (calmReg [("main", [("boom", [⟨9, true⟩]), ("_all", [])])])
        "main" "boom").map callShape
      = (emitReg [("main", [("boom", [⟨9, true⟩]), ("_all", [])])]
          "main" "boom").map callShape :=
  (emit_error_isolation [("main", [("boom", [⟨9, true⟩]), ("_all", [])])]
    "main" "boom").1
